import Mathlib

/-!
Verification of the Suno_DownloadEverything repository.

Shallow embedding of the fetch / cache / sync / plan logic implemented by
src/progress_check.py, src/targeted_update.py and src/Suno_downloader.py.
Python dicts holding JSON clips are modelled by a `Clip` structure carrying
exactly the fields the verified code inspects; missing-or-falsy JSON values
are modelled by `Option` (with `none` for an absent key and `some ""` for an
empty string, so Python truthiness is recoverable).  Cache page files are
modelled by a `Page` inductive: a file that fails `json.loads` is
`Page.unreadable`, a file whose payload is neither a list nor an object with
a list under "clips" is `Page.nonList`, and a readable page holding a batch
is `Page.batch`.
-/

/-- A remote clip record, restricted to the fields the verified code reads.
`id` and `audio_url` are `none` when the JSON key is absent or `null`. -/
structure Clip where
  id : Option String
  audio_url : Option String
  deriving DecidableEq, Repr

/-- One on-disk cache page file, as seen by the loaders: unreadable
(json.loads raised), readable but not list-shaped, or a batch of clips. -/
inductive Page where
  | unreadable : Page
  | nonList : Page
  | batch : List Clip → Page
  deriving DecidableEq, Repr

/-- The batch held by a readable, list-shaped page. -/
def Page.batchOf : Page → Option (List Clip)
  | .batch b => some b
  | _ => none

namespace ProgressCheck

/-- progress_check.py, clip_id (lines 79-81): `str(value) if value else None`.
A missing or falsy (empty-string) id yields `none`. -/
def clip_id (c : Clip) : Option String :=
  match c.id with
  | none => none
  | some s => if s = "" then none else some s

/-- progress_check.py, dedupe_clips_by_id (lines 84-94), with the running
`seen_ids` set made explicit: a clip with a truthy id already in `seen` is
dropped, a clip with a fresh truthy id is kept and its id recorded, and a
clip without a truthy id is always kept. -/
def dedupeAux (seen : List String) : List Clip → List Clip
  | [] => []
  | c :: rest =>
    match clip_id c with
    | none => c :: dedupeAux seen rest
    | some cid =>
      if cid ∈ seen then dedupeAux seen rest
      else c :: dedupeAux (cid :: seen) rest

/-- progress_check.py, dedupe_clips_by_id (lines 84-94). -/
def dedupe_clips_by_id (clips : List Clip) : List Clip :=
  dedupeAux [] clips

theorem dedupeAux_cons (c : Clip) (seen : List String) (rest : List Clip) :
    dedupeAux seen (c :: rest)
      = match clip_id c with
        | none => c :: dedupeAux seen rest
        | some cid =>
          if cid ∈ seen then dedupeAux seen rest
          else c :: dedupeAux (cid :: seen) rest := rfl

theorem dedupeAux_cons_none {c : Clip} {seen : List String} {rest : List Clip}
    (h : clip_id c = none) :
    dedupeAux seen (c :: rest) = c :: dedupeAux seen rest := by
  rw [dedupeAux_cons, h]

theorem dedupeAux_cons_seen {c : Clip} {cid : String} {seen : List String} {rest : List Clip}
    (h : clip_id c = some cid) (hm : cid ∈ seen) :
    dedupeAux seen (c :: rest) = dedupeAux seen rest := by
  rw [dedupeAux_cons, h]
  exact if_pos hm

theorem dedupeAux_cons_new {c : Clip} {cid : String} {seen : List String} {rest : List Clip}
    (h : clip_id c = some cid) (hm : cid ∉ seen) :
    dedupeAux seen (c :: rest) = c :: dedupeAux (cid :: seen) rest := by
  rw [dedupeAux_cons, h]
  exact if_neg hm

/-- progress_check.py, load_cached_clips (lines 97-110), body of the loop over
the sorted page files, before the final dedupe: an unreadable page is skipped
(`except Exception: continue`), a non-list payload is skipped, an empty batch
stops the loop (`break`), and a non-empty batch is appended. -/
def loadRaw : List Page → List Clip
  | [] => []
  | .unreadable :: rest => loadRaw rest
  | .nonList :: rest => loadRaw rest
  | .batch b :: rest => if b.isEmpty then [] else b ++ loadRaw rest

theorem loadRaw_cons_batch (b : List Clip) (rest : List Page) :
    loadRaw (Page.batch b :: rest) = if b.isEmpty then [] else b ++ loadRaw rest := rfl

/-- progress_check.py, load_cached_clips (lines 97-110): concatenate the
batches of the cache pages (in sorted file order) and dedupe by id. -/
def load_cached_clips (pages : List Page) : List Clip :=
  dedupe_clips_by_id (loadRaw pages)

/-- Fuel-indexed chunking of a clip list into runs of CACHE_PAGE_SIZE = 20,
modelling the loop `for i in range(0, len(clips), CACHE_PAGE_SIZE)` of
rewrite_cache_clips (progress_check.py lines 121-124).  Any fuel at least
the length of the list is enough for the loop to finish. -/
def cacheChunksAux : Nat → List Clip → List (List Clip)
  | 0, _ => []
  | _, [] => []
  | fuel + 1, c :: rest => ((c :: rest).take 20) :: cacheChunksAux fuel ((c :: rest).drop 20)

/-- The chunks of CACHE_PAGE_SIZE = 20 clips written by rewrite_cache_clips. -/
def cacheChunks (clips : List Clip) : List (List Clip) :=
  cacheChunksAux clips.length clips

/-- progress_check.py, rewrite_cache_clips (lines 113-127): delete all page
files, then (for a non-empty list) write fixed-size batches of 20 followed by
one trailing empty batch; an empty list writes the empty sentinel page only.
The returned list is the complete new contents of the cache directory. -/
def rewrite_cache_clips (clips : List Clip) : List Page :=
  if clips.isEmpty then [Page.batch []]
  else (cacheChunks clips).map Page.batch ++ [Page.batch []]

/-! Lemmas about dedupe. -/

theorem dedupeAux_idem (l : List Clip) : ∀ seen : List String,
    dedupeAux seen (dedupeAux seen l) = dedupeAux seen l := by
  induction l with
  | nil => intro seen; rfl
  | cons c rest ih =>
    intro seen
    cases h : clip_id c with
    | none =>
      rw [dedupeAux_cons_none h, dedupeAux_cons_none h, ih seen]
    | some cid =>
      by_cases hmem : cid ∈ seen
      · rw [dedupeAux_cons_seen h hmem]
        exact ih seen
      · rw [dedupeAux_cons_new h hmem, dedupeAux_cons_new h hmem, ih (cid :: seen)]

theorem dedupe_idem (l : List Clip) :
    dedupe_clips_by_id (dedupe_clips_by_id l) = dedupe_clips_by_id l :=
  dedupeAux_idem l []

/-- Id-less clips pass through `dedupeAux` untouched: filtering the output on
clips without a truthy id gives back exactly the same sublist of the input. -/
theorem dedupeAux_filter_idless (l : List Clip) : ∀ seen : List String,
    (dedupeAux seen l).filter (fun c => (clip_id c).isNone)
      = l.filter (fun c => (clip_id c).isNone) := by
  induction l with
  | nil => intro seen; rfl
  | cons c rest ih =>
    intro seen
    cases h : clip_id c with
    | none =>
      rw [dedupeAux_cons_none h]
      simp only [List.filter_cons, h, Option.isNone_none, if_true]
      rw [ih seen]
    | some cid =>
      by_cases hmem : cid ∈ seen
      · rw [dedupeAux_cons_seen h hmem]
        simp only [List.filter_cons, h, Option.isNone_some, Bool.false_eq_true, if_false]
        exact ih seen
      · rw [dedupeAux_cons_new h hmem]
        simp only [List.filter_cons, h, Option.isNone_some, Bool.false_eq_true, if_false]
        exact ih (cid :: seen)

/-- Clips with a given truthy id: `dedupeAux` keeps the first occurrence only
(none at all when the id was already seen). -/
theorem dedupeAux_filter_id (l : List Clip) (s : String) : ∀ seen : List String,
    (dedupeAux seen l).filter (fun c => clip_id c == some s)
      = if s ∈ seen then [] else (l.filter (fun c => clip_id c == some s)).take 1 := by
  induction l with
  | nil =>
    intro seen
    by_cases hs : s ∈ seen <;> simp [dedupeAux, hs]
  | cons c rest ih =>
    intro seen
    cases h : clip_id c with
    | none =>
      have hp : (clip_id c == some s) = false := by rw [h]; rfl
      rw [dedupeAux_cons_none h]
      simp only [List.filter_cons, hp, Bool.false_eq_true, if_false]
      exact ih seen
    | some cid =>
      by_cases hmem : cid ∈ seen
      · rw [dedupeAux_cons_seen h hmem, ih seen]
        by_cases hs : s ∈ seen
        · simp [hs]
        · have hcs : cid ≠ s := fun hh => hs (hh ▸ hmem)
          have hp : (clip_id c == some s) = false := by rw [h]; simp [hcs]
          simp only [hs, if_false, List.filter_cons, hp, Bool.false_eq_true]
      · rw [dedupeAux_cons_new h hmem]
        by_cases hcs : cid = s
        · subst hcs
          have hp : (clip_id c == some cid) = true := by rw [h]; simp
          simp only [List.filter_cons, hp, if_true]
          rw [ih (cid :: seen), if_pos (List.mem_cons_self cid seen), if_neg hmem]
          simp
        · have hp : (clip_id c == some s) = false := by rw [h]; simp [hcs]
          simp only [List.filter_cons, hp, Bool.false_eq_true, if_false]
          rw [ih (cid :: seen)]
          have hmm : s ∈ cid :: seen ↔ s ∈ seen := by
            constructor
            · intro hx
              rcases List.mem_cons.mp hx with h1 | h1
              · exact absurd h1.symm hcs
              · exact h1
            · exact fun hx => List.mem_cons_of_mem _ hx
          by_cases hs : s ∈ seen
          · rw [if_pos (hmm.mpr hs), if_pos hs]
          · rw [if_neg (fun hx => hs (hmm.mp hx)), if_neg hs]

/-! Lemmas about the cache chunking and load/rewrite round trip. -/

theorem cacheChunksAux_flatten : ∀ (fuel : Nat) (l : List Clip), l.length ≤ fuel →
    (cacheChunksAux fuel l).flatten = l := by
  intro fuel
  induction fuel with
  | zero =>
    intro l hl
    have : l = [] := List.length_eq_zero.mp (Nat.le_zero.mp hl)
    subst this; rfl
  | succ n ih =>
    intro l hl
    cases l with
    | nil => rfl
    | cons c rest =>
      show (List.take 20 (c :: rest) :: cacheChunksAux n (List.drop 20 (c :: rest))).flatten
        = c :: rest
      rw [List.flatten_cons, ih (List.drop 20 (c :: rest))
        (by rw [List.length_drop]; simp only [List.length_cons] at hl ⊢; omega)]
      exact List.take_append_drop 20 (c :: rest)

theorem cacheChunksAux_ne_nil : ∀ (fuel : Nat) (l : List Clip),
    ∀ b ∈ cacheChunksAux fuel l, b ≠ [] := by
  intro fuel
  induction fuel with
  | zero => intro l b hb; simp [cacheChunksAux] at hb
  | succ n ih =>
    intro l b hb
    cases l with
    | nil => simp [cacheChunksAux] at hb
    | cons c rest =>
      rcases List.mem_cons.mp hb with hb | hb
      · subst hb; simp
      · exact ih _ b hb

theorem cacheChunks_flatten (l : List Clip) : (cacheChunks l).flatten = l :=
  cacheChunksAux_flatten l.length l (le_refl _)

/-- `loadRaw` over a sequence of non-empty batch pages followed by the empty
sentinel page recovers the concatenation of the batches. -/
theorem loadRaw_batches : ∀ cs : List (List Clip), (∀ b ∈ cs, b ≠ []) →
    loadRaw (cs.map Page.batch ++ [Page.batch []]) = cs.flatten := by
  intro cs
  induction cs with
  | nil => intro _; rfl
  | cons b rest ih =>
    intro h
    have hb : b ≠ [] := h b (List.mem_cons_self b rest)
    have hbe : b.isEmpty = false := by
      cases b with
      | nil => exact absurd rfl hb
      | cons x xs => rfl
    show loadRaw (Page.batch b :: (rest.map Page.batch ++ [Page.batch []])) = (b :: rest).flatten
    rw [loadRaw_cons_batch, hbe, if_neg Bool.false_ne_true,
      ih (fun x hx => h x (List.mem_cons_of_mem b hx)), List.flatten_cons]

theorem load_rewrite (l : List Clip) :
    load_cached_clips (rewrite_cache_clips l) = dedupe_clips_by_id l := by
  by_cases hl : l.isEmpty
  · have : l = [] := by
      cases l with
      | nil => rfl
      | cons x xs => exact absurd hl (by simp)
    subst this
    rfl
  · unfold rewrite_cache_clips
    rw [if_neg hl]
    unfold load_cached_clips
    rw [loadRaw_batches (cacheChunks l) (cacheChunksAux_ne_nil l.length l), cacheChunks_flatten]

end ProgressCheck

namespace SunoDownloader

/-- Suno_downloader.py, dedupe_clips_by_id (lines 181-192), with the running
`seen` set made explicit.  Unlike the progress_check variant, a clip without a
truthy id is dropped (`if not clip_id: continue`). -/
def dedupeAux (seen : List String) : List Clip → List Clip
  | [] => []
  | c :: rest =>
    match ProgressCheck.clip_id c with
    | none => dedupeAux seen rest
    | some cid =>
      if cid ∈ seen then dedupeAux seen rest
      else c :: dedupeAux (cid :: seen) rest

/-- Suno_downloader.py, dedupe_clips_by_id (lines 181-192). -/
def dedupe_clips_by_id (clips : List Clip) : List Clip :=
  dedupeAux [] clips

end SunoDownloader

/-- Claim C5 — Cache round-trip: for every item list, rewrite(items) followed
by load() returns the item list deduplicated by id with the order of first
occurrence preserved, and for an already-deduped list the round-trip is the
identity (dedupe is idempotent, so deduped input is returned unchanged). -/
theorem c5_cache_round_trip :
    (∀ l : List Clip,
        ProgressCheck.load_cached_clips (ProgressCheck.rewrite_cache_clips l)
          = ProgressCheck.dedupe_clips_by_id l)
    ∧ (∀ l : List Clip,
        ProgressCheck.load_cached_clips
            (ProgressCheck.rewrite_cache_clips (ProgressCheck.dedupe_clips_by_id l))
          = ProgressCheck.dedupe_clips_by_id l) := by
  constructor
  · exact ProgressCheck.load_rewrite
  · intro l
    rw [ProgressCheck.load_rewrite, ProgressCheck.dedupe_idem]

/-- Claim C9 — The cache loader's dedupe (progress_check.py) never removes a
clip whose id is missing or falsy: all id-less clips are kept with their
original relative order (stated as a filter identity, which preserves both
membership and order), and clips with a truthy id are deduplicated keeping
the first occurrence only.  The first-pass downloader's dedupe
(Suno_downloader.py) instead drops id-less clips, so the two functions
disagree on a one-element list holding an id-less clip. -/
theorem c9_dedupe_idless :
    (∀ l : List Clip,
        (ProgressCheck.dedupe_clips_by_id l).filter (fun c => (ProgressCheck.clip_id c).isNone)
          = l.filter (fun c => (ProgressCheck.clip_id c).isNone))
    ∧ (∀ (l : List Clip) (s : String),
        (ProgressCheck.dedupe_clips_by_id l).filter (fun c => ProgressCheck.clip_id c == some s)
          = (l.filter (fun c => ProgressCheck.clip_id c == some s)).take 1)
    ∧ ProgressCheck.dedupe_clips_by_id [Clip.mk none none] = [Clip.mk none none]
    ∧ SunoDownloader.dedupe_clips_by_id [Clip.mk none none] = [] := by
  refine ⟨fun l => ProgressCheck.dedupeAux_filter_idless l [], fun l s => ?_, rfl, rfl⟩
  have h := ProgressCheck.dedupeAux_filter_id l s []
  simpa using h


namespace TargetedUpdate

/-- Truthiness of the audio_url field, mirroring `if not audio_url` in
targeted_update.py line 136 (empty string and missing key are falsy). -/
def audioUrl (c : Clip) : Option String :=
  match c.audio_url with
  | none => none
  | some s => if s = "" then none else some s

/-- targeted_update.py, load_cache_clips (lines 133-154), inner loop over one
batch with the persistent `seen_ids` set made explicit: a clip is skipped when
its id or its audio_url is falsy, or when its id was already seen; otherwise
it is kept and its id recorded.  The model returns the kept clips in scan
order; building the per-base dict entries and the later per-base
(created_at, id) sort do not change which clips are kept. -/
def keptAux (seen : List String) : List Clip → List Clip
  | [] => []
  | c :: rest =>
    match ProgressCheck.clip_id c, audioUrl c with
    | none, _ => keptAux seen rest
    | some _, none => keptAux seen rest
    | some cid, some _ =>
      if cid ∈ seen then keptAux seen rest
      else c :: keptAux (cid :: seen) rest

/-- The `seen_ids` set after scanning one batch, starting from `seen`. -/
def seenAfter (seen : List String) : List Clip → List String
  | [] => seen
  | c :: rest =>
    match ProgressCheck.clip_id c, audioUrl c with
    | none, _ => seenAfter seen rest
    | some _, none => seenAfter seen rest
    | some cid, some _ =>
      if cid ∈ seen then seenAfter seen rest
      else seenAfter (cid :: seen) rest

/-- targeted_update.py, load_cache_clips (lines 121-131): loop over ALL page
files in sorted order; an unreadable page is counted and skipped
(`except Exception: continue`), a non-list payload is skipped, and every
readable batch — including an empty one, there is no break — is scanned with
the persistent `seen_ids` set. -/
def loadPagesAux : List String → List Page → List Clip
  | _, [] => []
  | seen, p :: rest =>
    match p.batchOf with
    | none => loadPagesAux seen rest
    | some b => keptAux seen b ++ loadPagesAux (seenAfter seen b) rest

/-- targeted_update.py, load_cache_clips (lines 114-159): the kept clips. -/
def load_cache_clips_kept (pages : List Page) : List Clip :=
  loadPagesAux [] pages

theorem keptAux_cons (c : Clip) (seen : List String) (rest : List Clip) :
    keptAux seen (c :: rest)
      = match ProgressCheck.clip_id c, audioUrl c with
        | none, _ => keptAux seen rest
        | some _, none => keptAux seen rest
        | some cid, some _ =>
          if cid ∈ seen then keptAux seen rest
          else c :: keptAux (cid :: seen) rest := rfl

theorem seenAfter_cons (c : Clip) (seen : List String) (rest : List Clip) :
    seenAfter seen (c :: rest)
      = match ProgressCheck.clip_id c, audioUrl c with
        | none, _ => seenAfter seen rest
        | some _, none => seenAfter seen rest
        | some cid, some _ =>
          if cid ∈ seen then seenAfter seen rest
          else seenAfter (cid :: seen) rest := rfl

theorem keptAux_cons_noid {c : Clip} {seen : List String} {rest : List Clip}
    (h1 : ProgressCheck.clip_id c = none) :
    keptAux seen (c :: rest) = keptAux seen rest := by
  rw [keptAux_cons, h1]

theorem keptAux_cons_nourl {c : Clip} {cid : String} {seen : List String} {rest : List Clip}
    (h1 : ProgressCheck.clip_id c = some cid) (h2 : audioUrl c = none) :
    keptAux seen (c :: rest) = keptAux seen rest := by
  rw [keptAux_cons, h1, h2]

theorem keptAux_cons_seen {c : Clip} {cid u : String} {seen : List String} {rest : List Clip}
    (h1 : ProgressCheck.clip_id c = some cid) (h2 : audioUrl c = some u) (hm : cid ∈ seen) :
    keptAux seen (c :: rest) = keptAux seen rest := by
  rw [keptAux_cons, h1, h2]
  exact if_pos hm

theorem keptAux_cons_new {c : Clip} {cid u : String} {seen : List String} {rest : List Clip}
    (h1 : ProgressCheck.clip_id c = some cid) (h2 : audioUrl c = some u) (hm : cid ∉ seen) :
    keptAux seen (c :: rest) = c :: keptAux (cid :: seen) rest := by
  rw [keptAux_cons, h1, h2]
  exact if_neg hm

theorem seenAfter_cons_noid {c : Clip} {seen : List String} {rest : List Clip}
    (h1 : ProgressCheck.clip_id c = none) :
    seenAfter seen (c :: rest) = seenAfter seen rest := by
  rw [seenAfter_cons, h1]

theorem seenAfter_cons_nourl {c : Clip} {cid : String} {seen : List String} {rest : List Clip}
    (h1 : ProgressCheck.clip_id c = some cid) (h2 : audioUrl c = none) :
    seenAfter seen (c :: rest) = seenAfter seen rest := by
  rw [seenAfter_cons, h1, h2]

theorem seenAfter_cons_seen {c : Clip} {cid u : String} {seen : List String} {rest : List Clip}
    (h1 : ProgressCheck.clip_id c = some cid) (h2 : audioUrl c = some u) (hm : cid ∈ seen) :
    seenAfter seen (c :: rest) = seenAfter seen rest := by
  rw [seenAfter_cons, h1, h2]
  exact if_pos hm

theorem seenAfter_cons_new {c : Clip} {cid u : String} {seen : List String} {rest : List Clip}
    (h1 : ProgressCheck.clip_id c = some cid) (h2 : audioUrl c = some u) (hm : cid ∉ seen) :
    seenAfter seen (c :: rest) = seenAfter (cid :: seen) rest := by
  rw [seenAfter_cons, h1, h2]
  exact if_neg hm

/-- Scanning a concatenation of two batches with one persistent seen set is
scanning the first, then the second starting from the updated seen set. -/
theorem keptAux_append (b : List Clip) : ∀ (seen : List String) (r : List Clip),
    keptAux seen (b ++ r) = keptAux seen b ++ keptAux (seenAfter seen b) r := by
  induction b with
  | nil => intro seen r; rfl
  | cons c rest ih =>
    intro seen r
    rw [List.cons_append]
    cases hid : ProgressCheck.clip_id c with
    | none =>
      rw [keptAux_cons_noid hid, keptAux_cons_noid hid, seenAfter_cons_noid hid]
      exact ih seen r
    | some cid =>
      cases hurl : audioUrl c with
      | none =>
        rw [keptAux_cons_nourl hid hurl, keptAux_cons_nourl hid hurl,
          seenAfter_cons_nourl hid hurl]
        exact ih seen r
      | some u =>
        by_cases hmem : cid ∈ seen
        · rw [keptAux_cons_seen hid hurl hmem, keptAux_cons_seen hid hurl hmem,
            seenAfter_cons_seen hid hurl hmem]
          exact ih seen r
        · rw [keptAux_cons_new hid hurl hmem, keptAux_cons_new hid hurl hmem,
            seenAfter_cons_new hid hurl hmem, List.cons_append, ih (cid :: seen) r]

/-- The targeted_update loader never stops early: it scans the concatenation
of the batches of every readable list-shaped page, whatever comes before or
after unreadable pages, empty batches or index gaps. -/
theorem loadPagesAux_flatten : ∀ (pages : List Page) (seen : List String),
    loadPagesAux seen pages = keptAux seen ((pages.filterMap Page.batchOf).flatten) := by
  intro pages
  induction pages with
  | nil => intro seen; rfl
  | cons p rest ih =>
    intro seen
    cases p with
    | unreadable => exact ih seen
    | nonList => exact ih seen
    | batch b =>
      show keptAux seen b ++ loadPagesAux (seenAfter seen b) rest
        = keptAux seen ((b :: rest.filterMap Page.batchOf).flatten)
      rw [List.flatten_cons, keptAux_append, ih (seenAfter seen b)]

end TargetedUpdate

namespace ProgressCheck

/-- The progress_check loader skips unreadable and non-list pages entirely and
stops only at the first empty batch: what it loads is the concatenation of
the non-empty batches strictly before the first empty batch among the
readable list-shaped pages. -/
theorem loadRaw_eq_takeWhile : ∀ pages : List Page,
    loadRaw pages = ((pages.filterMap Page.batchOf).takeWhile (fun b => !b.isEmpty)).flatten := by
  intro pages
  induction pages with
  | nil => rfl
  | cons p rest ih =>
    cases p with
    | unreadable => exact ih
    | nonList => exact ih
    | batch b =>
      show (if b.isEmpty then [] else b ++ loadRaw rest)
        = ((b :: rest.filterMap Page.batchOf).takeWhile (fun x => !x.isEmpty)).flatten
      rw [List.takeWhile_cons]
      cases hbe : b.isEmpty with
      | true => simp
      | false => simp [ih]

end ProgressCheck

/-- Concrete clips used in the counterexamples and scenario theorems. -/
def clipA : Clip := ⟨some "a", some "ua"⟩

def clipB : Clip := ⟨some "b", some "ub"⟩

/-- Claim C2 counterexample — load_cached_clips does NOT stop at the first
unreadable page: with a readable page [clipA], then an unreadable page, then
a readable page [clipB], the loaded result is [clipA, clipB], so clipB, which
comes from a page file after the first unreadable page, appears in it. -/
theorem c2_counterexample :
    ProgressCheck.load_cached_clips [Page.batch [clipA], Page.unreadable, Page.batch [clipB]]
      = [clipA, clipB] := by decide

/-- Claim C2 (amended) — Neither loader stops at an unreadable or missing
page.  progress_check.load_cached_clips skips unreadable and non-list pages
and stops only at the first empty batch among the remaining readable pages;
targeted_update.load_cache_clips never stops early at all, scanning the
batches of every readable page.  Items coming after an unreadable page or an
index gap therefore do appear in the loaded result. -/
theorem c2_loaders_skip_unreadable :
    (∀ pages : List Page,
        ProgressCheck.load_cached_clips pages
          = ProgressCheck.dedupe_clips_by_id
              (((pages.filterMap Page.batchOf).takeWhile (fun b => !b.isEmpty)).flatten))
    ∧ (∀ pages : List Page,
        TargetedUpdate.load_cache_clips_kept pages
          = TargetedUpdate.keptAux [] ((pages.filterMap Page.batchOf).flatten)) := by
  constructor
  · intro pages
    unfold ProgressCheck.load_cached_clips
    rw [ProgressCheck.loadRaw_eq_takeWhile]
  · intro pages
    exact TargetedUpdate.loadPagesAux_flatten pages []

namespace Diff

/-- Python `dict.get(key, 0)` on a counter, modelling `actual.get(base, 0)`
and `expected.get(base, 0)` in progress_check.py lines 377-378 and
targeted_update.py line 330.  Counters are association lists with distinct
keys (Python dicts). -/
def getD (m : List (String × Nat)) (k : String) : Nat :=
  (m.lookup k).getD 0

/-- targeted_update.py, main (line 330):
`{base: (need - actual.get(base, 0)) for base, need in expected.items()
  if need > actual.get(base, 0)}`. -/
def missing_tu (expected actual : List (String × Nat)) : List (String × Nat) :=
  expected.filterMap (fun p =>
    if getD actual p.1 < p.2 then some (p.1, p.2 - getD actual p.1) else none)

/-- progress_check.py, main (line 377):
`{base: (need, actual.get(base, 0)) for base, need in expected.items()
  if actual.get(base, 0) < need}`. -/
def missing_pc (expected actual : List (String × Nat)) : List (String × Nat × Nat) :=
  expected.filterMap (fun p =>
    if getD actual p.1 < p.2 then some (p.1, (p.2, getD actual p.1)) else none)

/-- progress_check.py, main (line 378):
`{base: (actual.get(base, 0), expected.get(base, 0)) for base in actual.keys()
  if actual.get(base, 0) > expected.get(base, 0)}`. -/
def extra_pc (expected actual : List (String × Nat)) : List (String × Nat × Nat) :=
  actual.filterMap (fun p =>
    if getD expected p.1 < p.2 then some (p.1, (p.2, getD expected p.1)) else none)

theorem lookup_cons_pos {β : Type} {k b : String} (v : β) (es : List (String × β))
    (hbeq : (b == k) = true) :
    ((k, v) :: es).lookup b = some v := by
  show (match b == k with
    | true => some v
    | false => es.lookup b) = some v
  rw [hbeq]

theorem lookup_cons_ne {β : Type} {k b : String} (v : β) (es : List (String × β))
    (hbeq : (b == k) = false) :
    ((k, v) :: es).lookup b = es.lookup b := by
  show (match b == k with
    | true => some v
    | false => es.lookup b) = es.lookup b
  rw [hbeq]

theorem lookup_keyed_filterMap_not_mem {γ : Type} (g : String × Nat → Option (String × γ))
    (f : String → Nat → Option γ)
    (hg : ∀ p, g p = (f p.1 p.2).map (fun v => (p.1, v))) :
    ∀ (m : List (String × Nat)) (b : String), b ∉ m.map Prod.fst →
      (m.filterMap g).lookup b = none := by
  intro m
  induction m with
  | nil => intro b _; rfl
  | cons p rest ih =>
    intro b hb
    obtain ⟨k, n⟩ := p
    simp only [List.map_cons, List.mem_cons] at hb
    push_neg at hb
    cases hf : f k n with
    | none =>
      rw [List.filterMap_cons_none (by rw [hg (k, n)]; simp [hf])]
      exact ih b hb.2
    | some v =>
      rw [List.filterMap_cons_some (b := (k, v)) (by rw [hg (k, n)]; simp [hf])]
      rw [lookup_cons_ne v _ (beq_eq_false_iff_ne.mpr hb.1)]
      exact ih b hb.2

/-- Looking up a key in a key-preserving filterMap of an association list
with distinct keys evaluates the filter function at that key's value. -/
theorem lookup_keyed_filterMap {γ : Type} (g : String × Nat → Option (String × γ))
    (f : String → Nat → Option γ)
    (hg : ∀ p, g p = (f p.1 p.2).map (fun v => (p.1, v))) :
    ∀ (m : List (String × Nat)), (m.map Prod.fst).Nodup → ∀ b : String,
      (m.filterMap g).lookup b = (m.lookup b).bind (fun n => f b n) := by
  intro m
  induction m with
  | nil => intro _ b; rfl
  | cons p rest ih =>
    intro hnd b
    obtain ⟨k, n⟩ := p
    simp only [List.map_cons, List.nodup_cons] at hnd
    by_cases hbk : b = k
    · subst hbk
      have hbeq : (b == b) = true := beq_self_eq_true b
      cases hf : f b n with
      | none =>
        rw [List.filterMap_cons_none (by rw [hg (b, n)]; simp [hf])]
        rw [lookup_keyed_filterMap_not_mem g f hg rest b hnd.1]
        rw [lookup_cons_pos n rest hbeq]
        simp [hf]
      | some v =>
        rw [List.filterMap_cons_some (b := (b, v)) (by rw [hg (b, n)]; simp [hf])]
        rw [lookup_cons_pos v _ hbeq, lookup_cons_pos n rest hbeq]
        simp [hf]
    · have hbeq : (b == k) = false := beq_eq_false_iff_ne.mpr hbk
      cases hf : f k n with
      | none =>
        rw [List.filterMap_cons_none (by rw [hg (k, n)]; simp [hf])]
        rw [lookup_cons_ne n rest hbeq]
        exact ih hnd.2 b
      | some v =>
        rw [List.filterMap_cons_some (b := (k, v)) (by rw [hg (k, n)]; simp [hf])]
        rw [lookup_cons_ne v _ hbeq, lookup_cons_ne n rest hbeq]
        exact ih hnd.2 b

theorem missing_tu_lookup (expected actual : List (String × Nat))
    (hexp : (expected.map Prod.fst).Nodup) (b : String) :
    (missing_tu expected actual).lookup b
      = if getD actual b < getD expected b
        then some (getD expected b - getD actual b) else none := by
  unfold missing_tu
  rw [lookup_keyed_filterMap
    (fun p => if getD actual p.1 < p.2 then some (p.1, p.2 - getD actual p.1) else none)
    (fun k n => if getD actual k < n then some (n - getD actual k) else none)
    (fun p => by by_cases h : getD actual p.1 < p.2 <;> simp [h])
    expected hexp b]
  cases hm : expected.lookup b with
  | none => simp [getD, hm]
  | some n => simp [getD, hm]

theorem missing_pc_lookup (expected actual : List (String × Nat))
    (hexp : (expected.map Prod.fst).Nodup) (b : String) :
    (missing_pc expected actual).lookup b
      = if getD actual b < getD expected b
        then some (getD expected b, getD actual b) else none := by
  unfold missing_pc
  rw [lookup_keyed_filterMap
    (fun p => if getD actual p.1 < p.2 then some (p.1, (p.2, getD actual p.1)) else none)
    (fun k n => if getD actual k < n then some ((n, getD actual k)) else none)
    (fun p => by by_cases h : getD actual p.1 < p.2 <;> simp [h])
    expected hexp b]
  cases hm : expected.lookup b with
  | none => simp [getD, hm]
  | some n => simp [getD, hm]

theorem extra_pc_lookup (expected actual : List (String × Nat))
    (hact : (actual.map Prod.fst).Nodup) (b : String) :
    (extra_pc expected actual).lookup b
      = if getD expected b < getD actual b
        then some (getD actual b, getD expected b) else none := by
  unfold extra_pc
  rw [lookup_keyed_filterMap
    (fun p => if getD expected p.1 < p.2 then some (p.1, (p.2, getD expected p.1)) else none)
    (fun k n => if getD expected k < n then some ((n, getD expected k)) else none)
    (fun p => by by_cases h : getD expected p.1 < p.2 <;> simp [h])
    actual hact b]
  cases hm : actual.lookup b with
  | none => simp [getD, hm]
  | some n => simp [getD, hm]

end Diff

/-- Claim C6 — Diff engine: for counters with distinct keys, the
targeted_update missing map holds exactly expected - actual (positive Nat
subtraction, i.e. max(0, expected - actual)) for the bases where that is
positive; the progress_check missing and extra maps hold the (need, have)
and (have, expected) pairs for the bases where the respective difference is
positive; and no base is ever reported both missing and extra. -/
theorem c6_diff_engine (expected actual : List (String × Nat))
    (hexp : (expected.map Prod.fst).Nodup) (hact : (actual.map Prod.fst).Nodup) :
    (∀ b, (Diff.missing_tu expected actual).lookup b
        = if Diff.getD actual b < Diff.getD expected b
          then some (Diff.getD expected b - Diff.getD actual b) else none)
    ∧ (∀ b, (Diff.missing_pc expected actual).lookup b
        = if Diff.getD actual b < Diff.getD expected b
          then some (Diff.getD expected b, Diff.getD actual b) else none)
    ∧ (∀ b, (Diff.extra_pc expected actual).lookup b
        = if Diff.getD expected b < Diff.getD actual b
          then some (Diff.getD actual b, Diff.getD expected b) else none)
    ∧ (∀ b, ((Diff.missing_tu expected actual).lookup b).isSome
        → (Diff.extra_pc expected actual).lookup b = none) := by
  refine ⟨fun b => Diff.missing_tu_lookup expected actual hexp b,
    fun b => Diff.missing_pc_lookup expected actual hexp b,
    fun b => Diff.extra_pc_lookup expected actual hact b,
    fun b hb => ?_⟩
  rw [Diff.missing_tu_lookup expected actual hexp b] at hb
  rw [Diff.extra_pc_lookup expected actual hact b]
  by_cases hc : Diff.getD actual b < Diff.getD expected b
  · rw [if_neg (by omega)]
  · rw [if_neg hc] at hb
    simp at hb

/-- Claim C6 witness — the spec's worked example: expected {A:3, B:1}, actual
{A:2, C:1} gives missing deficit 1 for A and extra entry (1, 0) for C, and
base A is missing but not extra. -/
theorem c6_diff_engine_witness :
    (Diff.missing_tu [("A", 3), ("B", 1)] [("A", 2), ("C", 1)]).lookup "A" = some 1
    ∧ (Diff.extra_pc [("A", 3), ("B", 1)] [("A", 2), ("C", 1)]).lookup "C" = some (1, 0)
    ∧ (Diff.extra_pc [("A", 3), ("B", 1)] [("A", 2), ("C", 1)]).lookup "A" = none := by
  have h := c6_diff_engine [("A", 3), ("B", 1)] [("A", 2), ("C", 1)] (by decide) (by decide)
  refine ⟨?_, ?_, ?_⟩
  · rw [h.1 "A"]; decide
  · rw [h.2.2.1 "C"]; decide
  · exact h.2.2.2 "A" (by rw [h.1 "A"]; decide)

namespace ProgressCheck

/-- Outcome statuses of sync_cache_head (progress_check.py lines 157-189). -/
inductive SyncStatus where
  | empty_cache : SyncStatus
  | feed_empty : SyncStatus
  | no_overlap_refresh : SyncStatus
  | shifted : SyncStatus
  | up_to_date : SyncStatus
  deriving DecidableEq, Repr

/-- The result dict of sync_cache_head: status plus shifted_clips count. -/
structure SyncResult where
  status : SyncStatus
  shifted_clips : Nat
  deriving DecidableEq, Repr

/-- progress_check.py, sync_cache_head (lines 172-177), inner loop over one
live batch: clips accumulate until one whose truthy id is in the cached-id
set is met (the anchor); id-less clips are always accumulated.  Returns the
clips appended to live_prefix and whether the anchor was found. -/
def scanBatch (cachedIds : List String) : List Clip → List Clip × Bool
  | [] => ([], false)
  | c :: rest =>
    match clip_id c with
    | none =>
      let r := scanBatch cachedIds rest
      (c :: r.1, r.2)
    | some cid =>
      if cid ∈ cachedIds then ([], true)
      else
        let r := scanBatch cachedIds rest
        (c :: r.1, r.2)

/-- Outcome of the page-probe loop of sync_cache_head. -/
inductive ProbeOut where
  | feedEmpty : ProbeOut
  | anchored : List Clip → ProbeOut
  | noAnchor : ProbeOut
  deriving DecidableEq, Repr

/-- progress_check.py, sync_cache_head (lines 166-179), the probe loop
`for page in range(0, args.head_sync_pages)`: each page's batch is fetched in
order (the live feed is modelled as a pure function from page index to batch;
fetch exceptions propagate out of the synchronizer and are outside this
model); an empty batch exits with feed-empty, an anchor exits with the
accumulated live_prefix, and exhausting the probe pages is no-overlap. -/
def probe (cachedIds : List String) (live : Nat → List Clip) :
    List Clip → Nat → Nat → ProbeOut
  | _, _, 0 => ProbeOut.noAnchor
  | acc, page, fuel + 1 =>
    let batch := live page
    if batch.isEmpty then ProbeOut.feedEmpty
    else
      let r := scanBatch cachedIds batch
      if r.2 then ProbeOut.anchored (acc ++ r.1)
      else probe cachedIds live (acc ++ r.1) (page + 1) fuel

/-- progress_check.py, sync_cache_head (lines 157-189).  Takes the contents
of the cache directory and the live feed, and returns the new contents of
the cache directory together with the result dict.  `cached_ids` is the set
comprehension of line 162 (truthy ids of the cached clips). -/
def sync_cache_head (pages : List Page) (live : Nat → List Clip)
    (head_sync_pages : Nat) : List Page × SyncResult :=
  let cached_clips := load_cached_clips pages
  if cached_clips.isEmpty then (pages, ⟨SyncStatus.empty_cache, 0⟩)
  else
    let cached_ids := cached_clips.filterMap clip_id
    match probe cached_ids live [] 0 head_sync_pages with
    | ProbeOut.feedEmpty =>
      (rewrite_cache_clips [], ⟨SyncStatus.feed_empty, cached_clips.length⟩)
    | ProbeOut.noAnchor => (pages, ⟨SyncStatus.no_overlap_refresh, 0⟩)
    | ProbeOut.anchored live_pre =>
      let merged := dedupe_clips_by_id (live_pre ++ cached_clips)
      let shifted := merged.length - cached_clips.length
      if 0 < shifted then (rewrite_cache_clips merged, ⟨SyncStatus.shifted, shifted⟩)
      else (pages, ⟨SyncStatus.up_to_date, 0⟩)

end ProgressCheck

/-- Concrete clips for the head-drift scenario: the cached tail C2, C1, C0
and the new live head L1, L0. -/
def clipC0 : Clip := ⟨some "c0", some "u0"⟩

def clipC1 : Clip := ⟨some "c1", some "u1"⟩

def clipC2 : Clip := ⟨some "c2", some "u2"⟩

def clipL0 : Clip := ⟨some "l0", some "v0"⟩

def clipL1 : Clip := ⟨some "l1", some "v1"⟩

/-- A clip whose id never occurs in the cached scenario pages. -/
def clipX : Clip := ⟨some "x", some "ux"⟩

/-- The scenario cache directory: one page holding C2, C1, C0 (oldest-last)
plus the empty sentinel page. -/
def scenarioCache : List Page := [Page.batch [clipC2, clipC1, clipC0], Page.batch []]

/-- Claim C4 — Head-drift synchronizer, on the spec's scenario with the
default probe window of 5 pages.  With cache [C2,C1,C0] and live feed
beginning [L1,L0,C2,C1,C0]: the cache is rewritten to the merged list
[L1,L0,C2,C1,C0] (checked both as the rewritten page files and by loading
them back) and 2 shifted clips are reported.  With a live feed sharing no id
with the cache on any probed page, no_overlap_refresh is reported and the
synchronizer returns the cache directory unchanged.  With a live feed whose
head equals the cached head (merged length = cached length), up_to_date is
reported and the cache directory is returned unchanged. -/
theorem c4_head_drift_sync :
    (ProgressCheck.sync_cache_head scenarioCache
        (fun n => if n = 0 then [clipL1, clipL0, clipC2, clipC1, clipC0] else []) 5
      = (ProgressCheck.rewrite_cache_clips [clipL1, clipL0, clipC2, clipC1, clipC0],
          ⟨ProgressCheck.SyncStatus.shifted, 2⟩))
    ∧ (ProgressCheck.load_cached_clips
        (ProgressCheck.sync_cache_head scenarioCache
          (fun n => if n = 0 then [clipL1, clipL0, clipC2, clipC1, clipC0] else []) 5).1
      = [clipL1, clipL0, clipC2, clipC1, clipC0])
    ∧ (ProgressCheck.sync_cache_head scenarioCache (fun _ => [clipX]) 5
      = (scenarioCache, ⟨ProgressCheck.SyncStatus.no_overlap_refresh, 0⟩))
    ∧ (ProgressCheck.sync_cache_head scenarioCache
        (fun n => if n = 0 then [clipC2, clipC1, clipC0] else []) 5
      = (scenarioCache, ⟨ProgressCheck.SyncStatus.up_to_date, 0⟩)) := by
  refine ⟨?_, ?_, ?_, ?_⟩ <;> decide

namespace TargetedUpdate

/-- One entry of clips_by_base, as built by load_cache_clips
(targeted_update.py lines 146-154): the dict with id, title, base, audio_url
and created_at. -/
structure PlanClip where
  id : String
  title : String
  base : String
  audio_url : String
  created_at : String
  deriving DecidableEq, Repr

/-- Python `failed_attempts.get(clip_id, 0)` (targeted_update.py lines 198
and 378); counters are ints loaded from the state file. -/
def getDInt (m : List (String × Int)) (k : String) : Int :=
  (m.lookup k).getD 0

/-- The sort key of build_plan (targeted_update.py lines 189-190):
`(0 if base_name in hinted_set else 1, base_name)`, as a boolean
less-or-equal comparator on base names. -/
def baseLE (hinted : List String) (a b : String) : Bool :=
  let ra : Nat := if a ∈ hinted then 0 else 1
  let rb : Nat := if b ∈ hinted then 0 else 1
  if ra < rb then true
  else if rb < ra then false
  else compare a b != Ordering.gt

/-- Insertion into a list sorted by `le`. -/
def insertLE (le : String → String → Bool) (a : String) : List String → List String
  | [] => [a]
  | b :: rest => if le a b then a :: b :: rest else b :: insertLE le a rest

/-- Insertion sort, modelling Python's `sorted(keys, key=sort_key)` in
build_plan (targeted_update.py line 192). -/
def sortLE (le : String → String → Bool) : List String → List String
  | [] => []
  | a :: rest => insertLE le a (sortLE le rest)

/-- targeted_update.py, build_plan (lines 196-203), the inner loop over the
candidate clips of one base: a clip whose persisted failure count has reached
per_clip_max_failures is skipped; otherwise it is appended to the plan and
need is decremented; the loop breaks when need reaches 0 or the plan reaches
max_downloads. -/
def selectFromBase (failed : List (String × Int)) (ceil : Int) (maxDl : Nat) :
    List PlanClip → Nat → List PlanClip → List PlanClip
  | [], _, plan => plan
  | c :: rest, need, plan =>
    if ceil ≤ getDInt failed c.id then selectFromBase failed ceil maxDl rest need plan
    else
      if need - 1 = 0 ∨ maxDl ≤ (plan ++ [c]).length then plan ++ [c]
      else selectFromBase failed ceil maxDl rest (need - 1) (plan ++ [c])

/-- targeted_update.py, build_plan (lines 192-205), the outer loop over the
sorted base names: bases with no deficit are skipped (`if need <= 0`);
after a base is processed the loop breaks when the plan has reached
max_downloads. -/
def planBases (missing : List (String × Nat)) (cbb : String → List PlanClip)
    (failed : List (String × Int)) (ceil : Int) (maxDl : Nat) :
    List String → List PlanClip → List PlanClip
  | [], plan => plan
  | b :: rest, plan =>
    if Diff.getD missing b = 0 then planBases missing cbb failed ceil maxDl rest plan
    else
      if maxDl ≤ (selectFromBase failed ceil maxDl (cbb b) (Diff.getD missing b) plan).length
      then selectFromBase failed ceil maxDl (cbb b) (Diff.getD missing b) plan
      else planBases missing cbb failed ceil maxDl rest
        (selectFromBase failed ceil maxDl (cbb b) (Diff.getD missing b) plan)

/-- targeted_update.py, build_plan (lines 185-206).  `missing` is the deficit
counter, `cbb` models `clips_by_base.get(base, [])`, `failed` the persisted
failure counters, `maxDl` the cycle download cap and `ceil` the per-clip
failure ceiling.  Bases are visited hinted-first then lexicographically. -/
def build_plan (missing : List (String × Nat)) (cbb : String → List PlanClip)
    (failed : List (String × Int)) (hinted : List String) (maxDl : Nat) (ceil : Int) :
    List PlanClip :=
  planBases missing cbb failed ceil maxDl (sortLE (baseLE hinted) (missing.map Prod.fst)) []

/-- targeted_update.py, resolve_cycle_download_limit (lines 246-250):
`if max_downloads and max_downloads > 0: return max_downloads;
return max(1, missing_files)`. -/
def resolve_cycle_download_limit (max_downloads : Int) (missing_files : Int) : Int :=
  if max_downloads ≠ 0 ∧ 0 < max_downloads then max_downloads else max 1 missing_files

theorem selectFromBase_cons (failed : List (String × Int)) (ceil : Int) (maxDl : Nat)
    (c : PlanClip) (rest : List PlanClip) (need : Nat) (plan : List PlanClip) :
    selectFromBase failed ceil maxDl (c :: rest) need plan
      = if ceil ≤ getDInt failed c.id then selectFromBase failed ceil maxDl rest need plan
        else
          if need - 1 = 0 ∨ maxDl ≤ (plan ++ [c]).length then plan ++ [c]
          else selectFromBase failed ceil maxDl rest (need - 1) (plan ++ [c]) := rfl

theorem planBases_cons (missing : List (String × Nat)) (cbb : String → List PlanClip)
    (failed : List (String × Int)) (ceil : Int) (maxDl : Nat)
    (b : String) (rest : List String) (plan : List PlanClip) :
    planBases missing cbb failed ceil maxDl (b :: rest) plan
      = if Diff.getD missing b = 0 then planBases missing cbb failed ceil maxDl rest plan
        else
          if maxDl ≤ (selectFromBase failed ceil maxDl (cbb b) (Diff.getD missing b) plan).length
          then selectFromBase failed ceil maxDl (cbb b) (Diff.getD missing b) plan
          else planBases missing cbb failed ceil maxDl rest
            (selectFromBase failed ceil maxDl (cbb b) (Diff.getD missing b) plan) := rfl

/-- Every clip that selectFromBase adds to the plan has a failure count
strictly below the ceiling. -/
theorem selectFromBase_mem (failed : List (String × Int)) (ceil : Int) (maxDl : Nat) :
    ∀ (cs : List PlanClip) (need : Nat) (plan : List PlanClip) (c : PlanClip),
      c ∈ selectFromBase failed ceil maxDl cs need plan
        → c ∈ plan ∨ getDInt failed c.id < ceil := by
  intro cs
  induction cs with
  | nil => intro need plan c hc; exact Or.inl hc
  | cons c0 rest ih =>
    intro need plan c hc
    rw [selectFromBase_cons] at hc
    by_cases hskip : ceil ≤ getDInt failed c0.id
    · rw [if_pos hskip] at hc
      exact ih need plan c hc
    · rw [if_neg hskip] at hc
      have hlt : getDInt failed c0.id < ceil := lt_of_not_le hskip
      by_cases hstop : need - 1 = 0 ∨ maxDl ≤ (plan ++ [c0]).length
      · rw [if_pos hstop] at hc
        rcases List.mem_append.mp hc with h | h
        · exact Or.inl h
        · rw [List.mem_singleton.mp h]
          exact Or.inr hlt
      · rw [if_neg hstop] at hc
        rcases ih (need - 1) (plan ++ [c0]) c hc with h | h
        · rcases List.mem_append.mp h with h2 | h2
          · exact Or.inl h2
          · rw [List.mem_singleton.mp h2]
            exact Or.inr hlt
        · exact Or.inr h

/-- Starting strictly below the cap, selectFromBase never exceeds it. -/
theorem selectFromBase_length (failed : List (String × Int)) (ceil : Int) (maxDl : Nat) :
    ∀ (cs : List PlanClip) (need : Nat) (plan : List PlanClip), plan.length < maxDl →
      (selectFromBase failed ceil maxDl cs need plan).length ≤ maxDl := by
  intro cs
  induction cs with
  | nil => intro need plan h; exact le_of_lt h
  | cons c0 rest ih =>
    intro need plan h
    rw [selectFromBase_cons]
    by_cases hskip : ceil ≤ getDInt failed c0.id
    · rw [if_pos hskip]
      exact ih need plan h
    · rw [if_neg hskip]
      have hlen : (plan ++ [c0]).length = plan.length + 1 := by simp
      by_cases hstop : need - 1 = 0 ∨ maxDl ≤ (plan ++ [c0]).length
      · rw [if_pos hstop, hlen]
        omega
      · rw [if_neg hstop]
        rcases not_or.mp hstop with ⟨_, h2⟩
        exact ih (need - 1) (plan ++ [c0]) (lt_of_not_le h2)

theorem planBases_mem (missing : List (String × Nat)) (cbb : String → List PlanClip)
    (failed : List (String × Int)) (ceil : Int) (maxDl : Nat) :
    ∀ (bs : List String) (plan : List PlanClip) (c : PlanClip),
      c ∈ planBases missing cbb failed ceil maxDl bs plan
        → c ∈ plan ∨ getDInt failed c.id < ceil := by
  intro bs
  induction bs with
  | nil => intro plan c hc; exact Or.inl hc
  | cons b rest ih =>
    intro plan c hc
    rw [planBases_cons] at hc
    by_cases hz : Diff.getD missing b = 0
    · rw [if_pos hz] at hc
      exact ih plan c hc
    · rw [if_neg hz] at hc
      by_cases hcap : maxDl
          ≤ (selectFromBase failed ceil maxDl (cbb b) (Diff.getD missing b) plan).length
      · rw [if_pos hcap] at hc
        exact selectFromBase_mem failed ceil maxDl (cbb b) (Diff.getD missing b) plan c hc
      · rw [if_neg hcap] at hc
        rcases ih _ c hc with h | h
        · exact selectFromBase_mem failed ceil maxDl (cbb b) (Diff.getD missing b) plan c h
        · exact Or.inr h

theorem planBases_length (missing : List (String × Nat)) (cbb : String → List PlanClip)
    (failed : List (String × Int)) (ceil : Int) (maxDl : Nat) :
    ∀ (bs : List String) (plan : List PlanClip), plan.length < maxDl →
      (planBases missing cbb failed ceil maxDl bs plan).length ≤ maxDl := by
  intro bs
  induction bs with
  | nil => intro plan h; exact le_of_lt h
  | cons b rest ih =>
    intro plan h
    rw [planBases_cons]
    by_cases hz : Diff.getD missing b = 0
    · rw [if_pos hz]
      exact ih plan h
    · rw [if_neg hz]
      by_cases hcap : maxDl
          ≤ (selectFromBase failed ceil maxDl (cbb b) (Diff.getD missing b) plan).length
      · rw [if_pos hcap]
        exact selectFromBase_length failed ceil maxDl (cbb b) (Diff.getD missing b) plan h
      · rw [if_neg hcap]
        exact ih _ (lt_of_not_le hcap)

end TargetedUpdate

/-- Claim C7 — Planner bounds: whenever the cycle cap is at least 1 (which
resolve_cycle_download_limit always guarantees, as the third conjunct
states), every clip selected by build_plan has a persisted failure count
strictly below the per-item ceiling, regardless of any base's deficit, and
the plan size never exceeds the cap. -/
theorem c7_plan_bounds (missing : List (String × Nat))
    (cbb : String → List TargetedUpdate.PlanClip)
    (failed : List (String × Int)) (hinted : List String) (maxDl : Nat) (ceil : Int)
    (hmax : 1 ≤ maxDl) :
    (∀ c ∈ TargetedUpdate.build_plan missing cbb failed hinted maxDl ceil,
        TargetedUpdate.getDInt failed c.id < ceil)
    ∧ (TargetedUpdate.build_plan missing cbb failed hinted maxDl ceil).length ≤ maxDl
    ∧ (∀ md mf : Int, 1 ≤ TargetedUpdate.resolve_cycle_download_limit md mf) := by
  refine ⟨fun c hc => ?_, ?_, fun md mf => ?_⟩
  · rcases TargetedUpdate.planBases_mem missing cbb failed ceil maxDl
        (TargetedUpdate.sortLE (TargetedUpdate.baseLE hinted) (missing.map Prod.fst)) [] c hc
      with h | h
    · exact absurd h (List.not_mem_nil c)
    · exact h
  · exact TargetedUpdate.planBases_length missing cbb failed ceil maxDl _ []
      (by simpa using hmax)
  · unfold TargetedUpdate.resolve_cycle_download_limit
    by_cases h : md ≠ 0 ∧ 0 < md
    · rw [if_pos h]
      omega
    · rw [if_neg h]
      exact le_max_left 1 mf

/-- A concrete candidate clip for the planner witness. -/
def pclA : TargetedUpdate.PlanClip := ⟨"i1", "t", "X", "u", "2024-01-01"⟩

/-- A candidate clip whose failure count sits at the ceiling in the witness. -/
def pclB : TargetedUpdate.PlanClip := ⟨"i2", "t", "X", "u", "2024-01-02"⟩

/-- Claim C7 witness — a concrete plan: base X needs 2 clips, candidate i2 is
at the failure ceiling 3 and is skipped, and with cap 1 the plan is exactly
[pclA], of size 1. -/
theorem c7_plan_bounds_witness :
    (TargetedUpdate.build_plan [("X", 2)] (fun _ => [pclB, pclA]) [("i2", 3)] [] 1 3).length ≤ 1
    ∧ TargetedUpdate.build_plan [("X", 2)] (fun _ => [pclB, pclA]) [("i2", 3)] [] 1 3
        = [pclA]
    ∧ TargetedUpdate.getDInt [("i2", 3)] pclA.id < 3 := by
  have h := c7_plan_bounds [("X", 2)] (fun _ => [pclB, pclA]) [("i2", 3)] [] 1 3 (by decide)
  exact ⟨h.2.1, by decide, h.1 pclA (by decide)⟩

/-- The output directory, split by extension: `mp3s` holds the full names of
the `<stem>.mp3` files (the ones the inventory scanner counts), `parts` the
full names of `<stem>.mp3.part` temporary files.  A reserve candidate always
ends in ".mp3" and a temporary name always ends in ".part", so existence
probes for a candidate only consult `mp3s`. -/
structure FS where
  mp3s : List String
  parts : List String
  deriving DecidableEq, Repr

/-- The versioned-name search of reserve_unique_path, `while True` over
n = 2, 3, ... (Suno_downloader.py lines 73-78, targeted_update.py lines
96-101), with explicit fuel; any fuel larger than the number of files
suffices for the search to end, and the claims below do not depend on the
returned name beyond it being computed deterministically. -/
def reserveFrom (mp3s : List String) (base : String) : Nat → Nat → String
  | n, 0 => base ++ " v" ++ toString n ++ ".mp3"
  | n, fuel + 1 =>
    if (base ++ " v" ++ toString n ++ ".mp3") ∈ mp3s
    then reserveFrom mp3s base (n + 1) fuel
    else base ++ " v" ++ toString n ++ ".mp3"

/-- Suno_downloader.py, reserve_unique_path (lines 69-78) and
targeted_update.py, reserve_unique_path (lines 92-101), which are identical:
probe `<base>.mp3`, then `<base> v2.mp3`, `<base> v3.mp3`, ... and return
the first name not present. -/
def reserve_unique_path (mp3s : List String) (base : String) : String :=
  if (base ++ ".mp3") ∈ mp3s then reserveFrom mp3s base 2 (mp3s.length + 1)
  else base ++ ".mp3"

/-- The branch taken by one try of a download retry loop, covering the
response classification and the two ways streaming can end:
`authStatus` = response 401/403; `clientStatus` = other 4xx;
`retryableStatus` = 429/5xx raising HTTPError before any file operation;
`streamFail` = RequestException/OSError raised after the output file was
created, mid-stream; `streamOk` = the body streamed completely. -/
inductive Attempt where
  | authStatus : Attempt
  | clientStatus : Attempt
  | retryableStatus : Attempt
  | streamFail : Attempt
  | streamOk : Attempt
  deriving DecidableEq, Repr

/-- The classification of a download result dict: `ok` for `{"ok": True}`;
the three failure kinds keep the error tag of the dict that produced them. -/
inductive Outcome where
  | ok : Outcome
  | authFailed : Outcome
  | httpError : Outcome
  | retryableFail : Outcome
  deriving DecidableEq, Repr

namespace SunoDownloader

/-- Suno_downloader.py, download_song (lines 285-326), the effect of one try
on the output directory.  Status branches return or raise before any file is
touched.  On the streaming path the final name is reserved, the body is
written to `tmp_path = <reserved>.part` (line 308), and only on completion
is the temporary renamed onto the reserved name (`tmp_path.replace`,
line 313); on a mid-stream exception the temporary is unlinked
(lines 316-320). -/
def download_song_attempt (fs : FS) (base : String) (a : Attempt) : FS × Outcome :=
  match a with
  | .authStatus => (fs, Outcome.authFailed)
  | .clientStatus => (fs, Outcome.httpError)
  | .retryableStatus => (fs, Outcome.retryableFail)
  | .streamFail =>
    let out := reserve_unique_path fs.mp3s base
    let tmp := out ++ ".part"
    let created : FS := { fs with parts := tmp :: fs.parts }
    ({ created with parts := created.parts.erase tmp }, Outcome.retryableFail)
  | .streamOk =>
    let out := reserve_unique_path fs.mp3s base
    let tmp := out ++ ".part"
    let created : FS := { fs with parts := tmp :: fs.parts }
    ({ mp3s := out :: created.mp3s, parts := created.parts.erase tmp }, Outcome.ok)

end SunoDownloader

namespace TargetedUpdate

/-- targeted_update.py, download_clip (lines 209-243), the effect of one try
on the output directory.  Status branches return or raise before any file is
touched (auth on line 221 returns `{"ok": False, "retryable": False}`).  On
the streaming path the final name is reserved and the body is written
DIRECTLY to it with `out_path.open("xb")` (lines 228-232): there is no
temporary name, no rename, and the exception handler (line 235) performs no
cleanup, so a mid-stream failure leaves the partially written file at the
reserved final .mp3 path. -/
def download_clip_attempt (fs : FS) (base : String) (a : Attempt) : FS × Outcome :=
  match a with
  | .authStatus => (fs, Outcome.authFailed)
  | .clientStatus => (fs, Outcome.httpError)
  | .retryableStatus => (fs, Outcome.retryableFail)
  | .streamFail =>
    let out := reserve_unique_path fs.mp3s base
    ({ fs with mp3s := out :: fs.mp3s }, Outcome.retryableFail)
  | .streamOk =>
    let out := reserve_unique_path fs.mp3s base
    ({ fs with mp3s := out :: fs.mp3s }, Outcome.ok)

/-- The `result.get("ok")` test of targeted_update.py line 373. -/
def resultOk : Outcome → Bool
  | Outcome.ok => true
  | _ => false

/-- targeted_update.py, main (lines 373-378), the per-item counter update
after one download result: on `ok` the id's entry is removed
(`failed_attempts.pop(clip_id, None)`), otherwise
`failed_attempts[clip_id] = int(failed_attempts.get(clip_id, 0)) + 1`.
The association list is the dict; removal filters the key out and update
re-inserts the key with the incremented count (the dict lookup semantics are
unchanged by the position of the re-inserted key). -/
def update_failed_attempts (failed : List (String × Int)) (cid : String) (resOk : Bool) :
    List (String × Int) :=
  if resOk then failed.filter (fun p => !(p.1 == cid))
  else (cid, getDInt failed cid + 1) :: failed.filter (fun p => !(p.1 == cid))

theorem lookup_filter_out (cid : String) : ∀ failed : List (String × Int),
    (failed.filter (fun p => !(p.1 == cid))).lookup cid = none := by
  intro failed
  induction failed with
  | nil => rfl
  | cons p rest ih =>
    obtain ⟨k, v⟩ := p
    cases hk : (k == cid) with
    | true =>
      rw [List.filter_cons_of_neg (by simp [hk])]
      exact ih
    | false =>
      rw [List.filter_cons_of_pos (by simp [hk])]
      rw [Diff.lookup_cons_ne v _ (by
        have : ¬(k = cid) := by simpa using hk
        exact beq_eq_false_iff_ne.mpr (fun hh => this hh.symm))]
      exact ih

end TargetedUpdate

/-- Claim C3 counterexample — an auth failure DOES increment the persisted
failure counter: downloading with an empty counter table, an attempt that
hits a 401/403 produces a result with ok = False (download_clip line 221),
and main's update (lines 373-378) takes the failure branch, writing count 1
for the clip id.  The claim says the counter is neither cleared nor
incremented on auth failures. -/
theorem c3_counterexample :
    TargetedUpdate.update_failed_attempts [] "c"
        (TargetedUpdate.resultOk
          (TargetedUpdate.download_clip_attempt ⟨[], []⟩ "X" Attempt.authStatus).2)
      = [("c", 1)] := by decide

/-- Claim C3 (amended) — targeted_update's per-item counter update
distinguishes only success from failure: a successful download clears the
id's entry, and EVERY failed result — auth failure (401/403) included, which
is composed here through download_clip's auth branch — increments the
persisted counter by one. -/
theorem c3_failure_counter_updates :
    (∀ (fs : FS) (base : String) (failed : List (String × Int)) (cid : String),
        TargetedUpdate.getDInt
            (TargetedUpdate.update_failed_attempts failed cid
              (TargetedUpdate.resultOk
                (TargetedUpdate.download_clip_attempt fs base Attempt.authStatus).2)) cid
          = TargetedUpdate.getDInt failed cid + 1)
    ∧ (∀ (failed : List (String × Int)) (cid : String),
        TargetedUpdate.getDInt
            (TargetedUpdate.update_failed_attempts failed cid
              (TargetedUpdate.resultOk Outcome.httpError)) cid
          = TargetedUpdate.getDInt failed cid + 1)
    ∧ (∀ (failed : List (String × Int)) (cid : String),
        TargetedUpdate.getDInt
            (TargetedUpdate.update_failed_attempts failed cid
              (TargetedUpdate.resultOk Outcome.retryableFail)) cid
          = TargetedUpdate.getDInt failed cid + 1)
    ∧ (∀ (failed : List (String × Int)) (cid : String),
        (TargetedUpdate.update_failed_attempts failed cid
            (TargetedUpdate.resultOk Outcome.ok)).lookup cid
          = none) := by
  refine ⟨fun fs base failed cid => ?_, fun failed cid => ?_, fun failed cid => ?_,
    fun failed cid => ?_⟩
  · show TargetedUpdate.getDInt
        ((cid, TargetedUpdate.getDInt failed cid + 1)
          :: failed.filter (fun p => !(p.1 == cid))) cid = _
    unfold TargetedUpdate.getDInt
    rw [Diff.lookup_cons_pos _ _ (beq_self_eq_true cid)]
    rfl
  · show TargetedUpdate.getDInt
        ((cid, TargetedUpdate.getDInt failed cid + 1)
          :: failed.filter (fun p => !(p.1 == cid))) cid = _
    unfold TargetedUpdate.getDInt
    rw [Diff.lookup_cons_pos _ _ (beq_self_eq_true cid)]
    rfl
  · show TargetedUpdate.getDInt
        ((cid, TargetedUpdate.getDInt failed cid + 1)
          :: failed.filter (fun p => !(p.1 == cid))) cid = _
    unfold TargetedUpdate.getDInt
    rw [Diff.lookup_cons_pos _ _ (beq_self_eq_true cid)]
    rfl
  · exact TargetedUpdate.lookup_filter_out cid failed

/-- Claim C1 — download_song (the first-pass downloader) streams to a
`.part` temporary and leaves the directory unchanged on every failing
attempt, status failures and mid-stream failures alike; but download_clip
(targeted_update) streams directly to the reserved final path, so a failing
mid-stream attempt on an empty directory leaves a partial "X.mp3" visible to
the inventory scanner while reporting a failed result. -/
theorem c1_partial_file_on_failed_stream :
    (∀ (fs : FS) (base : String),
        (SunoDownloader.download_song_attempt fs base Attempt.authStatus).1 = fs)
    ∧ (∀ (fs : FS) (base : String),
        (SunoDownloader.download_song_attempt fs base Attempt.clientStatus).1 = fs)
    ∧ (∀ (fs : FS) (base : String),
        (SunoDownloader.download_song_attempt fs base Attempt.retryableStatus).1 = fs)
    ∧ (∀ (fs : FS) (base : String),
        (SunoDownloader.download_song_attempt fs base Attempt.streamFail).1 = fs)
    ∧ (TargetedUpdate.download_clip_attempt ⟨[], []⟩ "X" Attempt.streamFail).1.mp3s
        = ["X.mp3"]
    ∧ TargetedUpdate.resultOk
        (TargetedUpdate.download_clip_attempt ⟨[], []⟩ "X" Attempt.streamFail).2 = false := by
  refine ⟨fun fs base => rfl, fun fs base => rfl, fun fs base => rfl,
    fun fs base => ?_, by decide, by decide⟩
  simp [SunoDownloader.download_song_attempt, List.erase_cons_head]

/-- The outcome of one try (one HTTP request) inside a retry loop: a success
carrying the parsed batch, or a retryable failure (RequestException, parse
error, or a raised HTTPError for a 429/5xx status) carrying the error text. -/
inductive TryOut where
  | succ : List Clip → TryOut
  | fail : String → TryOut
  deriving DecidableEq, Repr

/-- Results of running a page-fetch retry loop against a finite outcome
trace: the parsed batch, the terminal RetryExceeded carrying the last
underlying error, or `running` when the trace ended with the loop still
willing to retry. -/
inductive FetchRes where
  | ok : List Clip → FetchRes
  | retryExceeded : String → FetchRes
  | running : FetchRes
  deriving DecidableEq, Repr

/-- The deterministic part of the backoff sleep before retrying after the
attempt-th failure: `min(max_backoff, (2 ** (attempt - 1)) * sleep)`
(progress_check.py line 151, Suno_downloader.py line 175, targeted_update.py
line 240 — all three identical). -/
def backoff (maxB baseS : ℚ) (attempt : Nat) : ℚ :=
  min maxB ((2 : ℚ) ^ (attempt - 1) * baseS)

namespace ProgressCheck

/-- progress_check.py, fetch_live_page (lines 130-154), run against a trace
of try outcomes; Suno_downloader.py, fetch_feed_page (lines 150-178)
implements the identical loop (its attempt counter is incremented at the top
of the loop instead of in the handler, giving the same value at each check).
On the attempt-th failure: if max_retries is nonzero and attempt >
max_retries, RetryExceeded with that (last) error; otherwise sleep
backoff(attempt) + jitter-sample(attempt) and retry the same page.  `jit`
gives the sampled `random.uniform(0, jitter)` value of each attempt; the
returned list collects the sleeps performed. -/
def fetch_live_page_run (maxRetries : Nat) (maxB baseS : ℚ) (jit : Nat → ℚ) :
    Nat → List TryOut → FetchRes × List ℚ
  | _, [] => (FetchRes.running, [])
  | _, TryOut.succ b :: _ => (FetchRes.ok b, [])
  | attempt, TryOut.fail e :: rest =>
    if maxRetries ≠ 0 ∧ maxRetries < attempt + 1 then (FetchRes.retryExceeded e, [])
    else
      let r := fetch_live_page_run maxRetries maxB baseS jit (attempt + 1) rest
      (r.1, (backoff maxB baseS (attempt + 1) + jit (attempt + 1)) :: r.2)

/-- fetch_live_page starting from attempt = 0 (line 131). -/
def fetch_live_page (maxRetries : Nat) (maxB baseS : ℚ) (jit : Nat → ℚ)
    (trace : List TryOut) : FetchRes × List ℚ :=
  fetch_live_page_run maxRetries maxB baseS jit 0 trace

/-- The sleep sequence after k consecutive failures starting at a given
attempt counter: each sleep is backoff + jitter at the incremented counter. -/
def fetchSleeps (maxB baseS : ℚ) (jit : Nat → ℚ) : Nat → Nat → List ℚ
  | _, 0 => []
  | attempt, k + 1 =>
    (backoff maxB baseS (attempt + 1) + jit (attempt + 1))
      :: fetchSleeps maxB baseS jit (attempt + 1) k

end ProgressCheck

namespace TargetedUpdate

/-- Results of running the per-item download retry loop of download_clip
against a trace: success, giving up with `{"ok": False, "retryable": True,
"error": str(e)}` carrying the last error (line 237), or `running`. -/
inductive DlRes where
  | ok : DlRes
  | gaveUp : String → DlRes
  | running : DlRes
  deriving DecidableEq, Repr

/-- targeted_update.py, download_clip (lines 215-243), the retry budget as
run against a trace of try outcomes: the attempt counter is incremented at
the top of the loop, and the handler gives up when max_retries is nonzero
and attempt >= max_retries (line 236) — one attempt EARLIER than the >
comparison used by the page fetchers. -/
def download_clip_run (maxRetries : Nat) : Nat → List TryOut → DlRes
  | _, [] => DlRes.running
  | _, TryOut.succ _ :: _ => DlRes.ok
  | attempt, TryOut.fail e :: rest =>
    if maxRetries ≠ 0 ∧ maxRetries ≤ attempt + 1 then DlRes.gaveUp e
    else download_clip_run maxRetries (attempt + 1) rest

end TargetedUpdate

theorem fetch_run_cons_fail (maxRetries : Nat) (maxB baseS : ℚ) (jit : Nat → ℚ)
    (attempt : Nat) (e : String) (rest : List TryOut) :
    ProgressCheck.fetch_live_page_run maxRetries maxB baseS jit attempt
        (TryOut.fail e :: rest)
      = if maxRetries ≠ 0 ∧ maxRetries < attempt + 1 then (FetchRes.retryExceeded e, [])
        else
          ((ProgressCheck.fetch_live_page_run maxRetries maxB baseS jit (attempt + 1) rest).1,
            (backoff maxB baseS (attempt + 1) + jit (attempt + 1))
              :: (ProgressCheck.fetch_live_page_run maxRetries maxB baseS jit
                  (attempt + 1) rest).2) := rfl

theorem dl_run_cons_fail (maxRetries : Nat) (attempt : Nat) (e : String)
    (rest : List TryOut) :
    TargetedUpdate.download_clip_run maxRetries attempt (TryOut.fail e :: rest)
      = if maxRetries ≠ 0 ∧ maxRetries ≤ attempt + 1 then TargetedUpdate.DlRes.gaveUp e
        else TargetedUpdate.download_clip_run maxRetries (attempt + 1) rest := rfl

/-- Running the fetch loop across k failures it can absorb advances the
attempt counter and records one backoff sleep per failure. -/
theorem fetch_run_fails (maxRetries : Nat) (maxB baseS : ℚ) (jit : Nat → ℚ) :
    ∀ (es : List String) (attempt : Nat) (rest : List TryOut),
      (maxRetries = 0 ∨ attempt + es.length ≤ maxRetries) →
      ProgressCheck.fetch_live_page_run maxRetries maxB baseS jit attempt
          (es.map TryOut.fail ++ rest)
        = ((ProgressCheck.fetch_live_page_run maxRetries maxB baseS jit
              (attempt + es.length) rest).1,
            ProgressCheck.fetchSleeps maxB baseS jit attempt es.length
              ++ (ProgressCheck.fetch_live_page_run maxRetries maxB baseS jit
                  (attempt + es.length) rest).2) := by
  intro es
  induction es with
  | nil =>
    intro attempt rest _
    simp [ProgressCheck.fetchSleeps]
  | cons e es ih =>
    intro attempt rest h
    rw [List.map_cons, List.cons_append, fetch_run_cons_fail]
    rw [if_neg (by
      rcases h with h | h
      · simp [h]
      · simp only [List.length_cons] at h
        intro hcon
        omega)]
    rw [ih (attempt + 1) rest (by
      rcases h with h | h
      · exact Or.inl h
      · simp only [List.length_cons] at h
        exact Or.inr (by omega))]
    have harith : attempt + 1 + es.length = attempt + (es.length + 1) := by omega
    rw [harith]
    rfl

/-- Running the download loop across k failures it can absorb advances the
attempt counter. -/
theorem dl_run_fails (maxRetries : Nat) :
    ∀ (es : List String) (attempt : Nat) (rest : List TryOut),
      (maxRetries = 0 ∨ attempt + es.length + 1 ≤ maxRetries) →
      TargetedUpdate.download_clip_run maxRetries attempt (es.map TryOut.fail ++ rest)
        = TargetedUpdate.download_clip_run maxRetries (attempt + es.length) rest := by
  intro es
  induction es with
  | nil => intro attempt rest _; rfl
  | cons e es ih =>
    intro attempt rest h
    rw [List.map_cons, List.cons_append, dl_run_cons_fail]
    rw [if_neg (by
      rcases h with h | h
      · simp [h]
      · simp only [List.length_cons] at h
        intro hcon
        omega)]
    rw [ih (attempt + 1) rest (by
      rcases h with h | h
      · exact Or.inl h
      · simp only [List.length_cons] at h
        exact Or.inr (by omega))]
    have harith : attempt + 1 + es.length = attempt + (es.length + 1) := by omega
    rw [harith]
    rfl

/-- The fetchSleeps sequence written out: the i-th sleep (0-based, for the
(i+1)-th attempt) is min(max_backoff, 2^i * sleep) + jitter-sample(i+1). -/
theorem fetchSleeps_eq_map (maxB baseS : ℚ) (jit : Nat → ℚ) :
    ∀ (k attempt : Nat),
      ProgressCheck.fetchSleeps maxB baseS jit attempt k
        = (List.range k).map
            (fun i => backoff maxB baseS (attempt + i + 1) + jit (attempt + i + 1)) := by
  intro k
  induction k with
  | zero => intro attempt; rfl
  | succ n ih =>
    intro attempt
    rw [List.range_succ_eq_map, List.map_cons, List.map_map]
    show ProgressCheck.fetchSleeps maxB baseS jit attempt (n + 1)
      = (backoff maxB baseS (attempt + 0 + 1) + jit (attempt + 0 + 1)) :: _
    rw [ProgressCheck.fetchSleeps]
    refine congrArg₂ _ (by norm_num) ?_
    rw [ih (attempt + 1)]
    refine List.map_congr_left (fun i _ => ?_)
    have : attempt + 1 + i + 1 = attempt + (i + 1) + 1 := by omega
    simp only [Function.comp_apply, Nat.succ_eq_add_one]
    rw [this]

/-- Claim C8 (amended) — Retry budgets.  The page fetchers (fetch_live_page
and the identical fetch_feed_page) absorb up to maxRetries failures — i.e.
they retry the same page up to maxRetries times after the first try, with
maxRetries = 0 meaning unlimited — sleeping
min(maxBackoff, base * 2^(attempt-1)) + uniform(0, jitter) before each retry,
and raise RetryExceeded carrying the LAST underlying error when failure
number maxRetries + 1 arrives.  The per-item download loop of download_clip
uses a strictly smaller budget: it gives up, returning a retryable failure
result with the last error, already on failure number maxRetries (its
attempt >= max_retries check fires one attempt earlier than the fetchers'
attempt > max_retries), so its budget rule is NOT the same.  maxRetries = 0
is unlimited for it as well. -/
theorem c8_retry_budgets (maxRetries : Nat) (maxB baseS : ℚ) (jit : Nat → ℚ) :
    (∀ (es : List String) (b : List Clip) (rest : List TryOut),
        (maxRetries = 0 ∨ es.length ≤ maxRetries) →
        ProgressCheck.fetch_live_page maxRetries maxB baseS jit
            (es.map TryOut.fail ++ (TryOut.succ b :: rest))
          = (FetchRes.ok b, ProgressCheck.fetchSleeps maxB baseS jit 0 es.length))
    ∧ (∀ (es : List String) (e : String) (rest : List TryOut),
        maxRetries ≠ 0 → es.length = maxRetries →
        (ProgressCheck.fetch_live_page maxRetries maxB baseS jit
            (es.map TryOut.fail ++ (TryOut.fail e :: rest))).1
          = FetchRes.retryExceeded e)
    ∧ (∀ (k attempt : Nat),
        ProgressCheck.fetchSleeps maxB baseS jit attempt k
          = (List.range k).map
              (fun i => backoff maxB baseS (attempt + i + 1) + jit (attempt + i + 1)))
    ∧ (∀ (es : List String) (e : String) (rest : List TryOut),
        maxRetries ≠ 0 → es.length + 1 = maxRetries →
        TargetedUpdate.download_clip_run maxRetries 0
            (es.map TryOut.fail ++ (TryOut.fail e :: rest))
          = TargetedUpdate.DlRes.gaveUp e)
    ∧ (∀ (es : List String),
        TargetedUpdate.download_clip_run 0 0 (es.map TryOut.fail)
          = TargetedUpdate.DlRes.running) := by
  refine ⟨fun es b rest h => ?_, fun es e rest h0 hlen => ?_,
    fetchSleeps_eq_map maxB baseS jit, fun es e rest h0 hlen => ?_, fun es => ?_⟩
  · unfold ProgressCheck.fetch_live_page
    rw [fetch_run_fails maxRetries maxB baseS jit es 0 (TryOut.succ b :: rest)
      (by rcases h with h | h; exact Or.inl h; exact Or.inr (by omega))]
    simp [ProgressCheck.fetch_live_page_run]
  · unfold ProgressCheck.fetch_live_page
    rw [fetch_run_fails maxRetries maxB baseS jit es 0 (TryOut.fail e :: rest)
      (Or.inr (by omega))]
    rw [fetch_run_cons_fail]
    rw [if_pos ⟨h0, by omega⟩]
  · rw [dl_run_fails maxRetries es 0 (TryOut.fail e :: rest) (Or.inr (by omega))]
    rw [dl_run_cons_fail]
    rw [if_pos ⟨h0, by omega⟩]
  · have h := dl_run_fails 0 es 0 [] (Or.inl rfl)
    rw [List.append_nil] at h
    rw [h]
    rfl

/-- Claim C8 counterexample — the budget rules differ: with max_retries = 2
and the same outcome trace (failure, failure, then success), the page
fetcher absorbs both failures and succeeds on the third try, while
download_clip gives up at its second failure (attempt 2 >= max_retries 2)
and never reaches the successful try. -/
theorem c8_counterexample :
    (ProgressCheck.fetch_live_page 2 1 1 (fun _ => 0)
        [TryOut.fail "e1", TryOut.fail "e2", TryOut.succ []]).1 = FetchRes.ok []
    ∧ TargetedUpdate.download_clip_run 2 0
        [TryOut.fail "e1", TryOut.fail "e2", TryOut.succ []]
      = TargetedUpdate.DlRes.gaveUp "e2" := by
  refine ⟨?_, ?_⟩ <;> decide

/-- Claim C8 witness — the amended theorem at max_retries = 2, max_backoff 1,
base sleep 1, zero jitter, on two failures then a success: the fetch returns
the batch with sleeps [min(1, 2^0), min(1, 2^1)] = [1, 1]. -/
theorem c8_retry_budgets_witness :
    ProgressCheck.fetch_live_page 2 1 1 (fun _ => 0)
        (["e1", "e2"].map TryOut.fail ++ (TryOut.succ [] :: []))
      = (FetchRes.ok [], ProgressCheck.fetchSleeps 1 1 (fun _ => 0) 0 2)
    ∧ ProgressCheck.fetchSleeps 1 1 (fun _ => 0) 0 2 = [1, 1] := by
  refine ⟨(c8_retry_budgets 2 1 1 (fun _ => 0)).1 ["e1", "e2"] [] []
    (Or.inr (by decide)), ?_⟩
  show [backoff 1 1 1 + 0, backoff 1 1 2 + 0] = [1, 1]
  norm_num [backoff]

/-- JSON values as json.loads produces them.  Python ints and floats are kept
apart (`intg` vs `flt`) because `isinstance(v, int)` accepts ints and bools
but not floats; objects are association lists whose keys json.loads has
already made unique. -/
inductive Json where
  | null : Json
  | bool : Bool → Json
  | intg : Int → Json
  | flt : ℚ → Json
  | str : String → Json
  | arr : List Json → Json
  | obj : List (String × Json) → Json

/-- The contents of the state file as load_state sees them: absent, failing
json.loads, or a parsed JSON value. -/
inductive StateFile where
  | missing : StateFile
  | unreadable : StateFile
  | content : Json → StateFile

namespace TargetedUpdate

/-- Python `isinstance(v, int)` followed by `int(v)`: ints pass through, and
bools — a subclass of int in Python — coerce to 1/0; everything else is
rejected. -/
def asPyInt : Json → Option Int
  | Json.intg n => some n
  | Json.bool b => some (if b then 1 else 0)
  | _ => none

/-- targeted_update.py, load_state (lines 67-81): a missing file yields an
empty table; any exception while parsing (unreadable JSON, or the explicit
`raise ValueError` when the document is not an object) yields an empty
table; a non-dict `failed_attempts` field is replaced by `{}`; and the dict
comprehension keeps only entries whose value is an int (`str(k)` is the
identity on the already-string JSON keys).  The model returns the
`failed_attempts` table. -/
def load_state : StateFile → List (String × Int)
  | StateFile.missing => []
  | StateFile.unreadable => []
  | StateFile.content (Json.obj fields) =>
    match (fields.lookup "failed_attempts").getD (Json.obj []) with
    | Json.obj fa => fa.filterMap (fun p => (asPyInt p.2).map (fun n => (p.1, n)))
    | _ => []
  | StateFile.content _ => []

theorem load_state_content_obj (fields : List (String × Json)) :
    load_state (StateFile.content (Json.obj fields))
      = match (fields.lookup "failed_attempts").getD (Json.obj []) with
        | Json.obj fa =>
          fa.filterMap (fun p => (asPyInt p.2).map (fun n => (p.1, n)))
        | _ => [] := rfl

end TargetedUpdate

/-- Claim C10 — load_state is total and self-sanitizing.  In this embedding
load_state is a total function (the Python except-handlers are the
catch-all branches), and: a missing or unreadable file yields the empty
table; a parsed document that is not an object yields the empty table; a
document whose failed_attempts field is present but not an object, or
absent, yields that field's sanitized table — the dict comprehension keeps
exactly the entries with int-typed (or bool, Python's int subclass) values,
as string-keyed integer counts, dropping every malformed entry. -/
theorem c10_load_state_sanitizes :
    TargetedUpdate.load_state StateFile.missing = []
    ∧ TargetedUpdate.load_state StateFile.unreadable = []
    ∧ (∀ j : Json, (∀ fields, j ≠ Json.obj fields)
        → TargetedUpdate.load_state (StateFile.content j) = [])
    ∧ (∀ (fields : List (String × Json)) (fa : List (String × Json)),
        (fields.lookup "failed_attempts").getD (Json.obj []) = Json.obj fa
        → TargetedUpdate.load_state (StateFile.content (Json.obj fields))
          = fa.filterMap (fun p => (TargetedUpdate.asPyInt p.2).map (fun n => (p.1, n))))
    ∧ (∀ (fields : List (String × Json)),
        (∀ fa, (fields.lookup "failed_attempts").getD (Json.obj []) ≠ Json.obj fa)
        → TargetedUpdate.load_state (StateFile.content (Json.obj fields)) = []) := by
  refine ⟨rfl, rfl, fun j hj => ?_, fun fields fa hfa => ?_, fun fields hfa => ?_⟩
  · cases j with
    | obj fields => exact absurd rfl (hj fields)
    | null => rfl
    | bool b => rfl
    | intg n => rfl
    | flt q => rfl
    | str s => rfl
    | arr l => rfl
  · rw [TargetedUpdate.load_state_content_obj, hfa]
  · rw [TargetedUpdate.load_state_content_obj]
    cases hv : (fields.lookup "failed_attempts").getD (Json.obj []) with
    | obj fa => exact absurd hv (hfa fa)
    | null => rfl
    | bool b => rfl
    | intg n => rfl
    | flt q => rfl
    | str s => rfl
    | arr l => rfl

/-- Claim C10 witness — a concrete state document
`{"updated_at": "now", "failed_attempts": {"a": 3, "b": "x", "c": 2.5,
"d": true}}`: parsing keeps a -> 3 and the bool d -> 1, silently dropping
the string-valued and float-valued entries; and a non-object document yields
the empty table. -/
theorem c10_load_state_sanitizes_witness :
    TargetedUpdate.load_state (StateFile.content (Json.obj
        [("updated_at", Json.str "now"),
          ("failed_attempts", Json.obj
            [("a", Json.intg 3), ("b", Json.str "x"), ("c", Json.flt (5 / 2)),
              ("d", Json.bool true)])]))
      = [("a", 3), ("d", 1)]
    ∧ TargetedUpdate.load_state (StateFile.content (Json.arr [])) = [] := by
  constructor
  · rw [c10_load_state_sanitizes.2.2.2.1
      [("updated_at", Json.str "now"),
        ("failed_attempts", Json.obj
          [("a", Json.intg 3), ("b", Json.str "x"), ("c", Json.flt (5 / 2)),
            ("d", Json.bool true)])]
      [("a", Json.intg 3), ("b", Json.str "x"), ("c", Json.flt (5 / 2)),
        ("d", Json.bool true)]
      (by rfl)]
    rfl
  · exact c10_load_state_sanitizes.2.2.1 (Json.arr []) (fun fields h => by cases h)
